import Mathlib

/-!
A shallow embedding of the campaign core of simple_email_sender.py.

The send log (the SQLite table sends) is modelled as an append-only list of
records; the timestamp day stamp is an abstract natural number assigned at
insert time.  The SMTP transport is an oracle: a connection outcome for the
batch plus, for each recipient index and attempt index, either success or the
text of the raised exception.  Sleep calls are recorded as a list of requested
durations; a sleep with a negative duration raises, as in CPython, and that
exception escapes the per-recipient loop to the generic batch-level handler.
Environment-derived configuration is passed as an explicit record.
-/

namespace EmailSender

/-- Left brace character, written via its code point. -/
def lbChar : Char := Char.ofNat 123

/-- Right brace character, written via its code point. -/
def rbChar : Char := Char.ofNat 125

/-- Text produced by applying str to a Python KeyError carrying the unknown
replacement-field name: the name surrounded by single quotes. -/
def pyKeyError (k : String) : String := "\x27" ++ k ++ "\x27"

/-- Message of the ValueError raised by CPython str.format on an unmatched
opening brace. -/
def singleLbMsg : String := "Single \x27\x7b\x27 encountered in format string"

/-- Message of the ValueError raised by CPython str.format on an unmatched
closing brace. -/
def singleRbMsg : String := "Single \x27\x7d\x27 encountered in format string"

/-- Message of the IndexError raised by CPython str.format on an empty
replacement field when no positional arguments are supplied. -/
def emptyFieldMsg : String := "Replacement index 0 out of range for positional args sequence"

/-- Message of the IndexError raised by CPython str.format on an all-digit
field name (a positional index) when no positional arguments are supplied;
the index shown is the parsed integer value of the field name. -/
def pyIndexError (k : String) : String :=
  "Replacement index " ++ toString (k.toNat?.getD 0) ++
    " out of range for positional args sequence"

/-- Model of CPython str.format called with keyword arguments only.  It
handles literal text, doubled braces, unmatched braces, the empty field
(auto-numbering, IndexError), all-digit fields (positional index, IndexError)
and plain keyword fields, taking the whole brace-delimited run as the keyword
name.  It does not parse conversion (exclamation), format-spec (colon),
attribute or index syntax inside a field, so on fields containing such
characters it diverges from CPython (which splits the field at them); every
theorem below therefore quantifies only over templates whose fields are plain
keyword names (wellFormedParts), where the two agree, and this covers the
placeholder shapes the program and its spec use.  The first argument is the
keyword mapping; the second is none while scanning literal text and some acc
(accumulated field characters, reversed) inside a replacement field.  Errors
carry the str of the raised exception. -/
def pyFormatAux (mapping : List (String × String)) :
    Option (List Char) → List Char → Except String (List Char)
  | none, [] => Except.ok []
  | none, c :: cs =>
    if c = lbChar then
      match cs with
      | [] => Except.error singleLbMsg
      | c2 :: cs2 =>
        if c2 = lbChar then (pyFormatAux mapping none cs2).map (fun s => lbChar :: s)
        else pyFormatAux mapping (some []) (c2 :: cs2)
    else if c = rbChar then
      match cs with
      | [] => Except.error singleRbMsg
      | c2 :: cs2 =>
        if c2 = rbChar then (pyFormatAux mapping none cs2).map (fun s => rbChar :: s)
        else Except.error singleRbMsg
    else (pyFormatAux mapping none cs).map (fun s => c :: s)
  | some _, [] => Except.error singleLbMsg
  | some acc, c :: cs =>
    if c = rbChar then
      let key := String.mk acc.reverse
      if key = "" then Except.error emptyFieldMsg
      else if key.data.all Char.isDigit then Except.error (pyIndexError key)
      else
        match mapping.lookup key with
        | some v => (pyFormatAux mapping none cs).map (fun s => v.data ++ s)
        | none => Except.error (pyKeyError key)
    else pyFormatAux mapping (some (c :: acc)) cs
termination_by structural _ l => l

/-- CPython str.format on a whole template string (keyword arguments only). -/
def pyFormat (mapping : List (String × String)) (template : String) : Except String String :=
  (pyFormatAux mapping none template.data).map (fun l => String.mk l)

/-- Status column of a row of the sends table. -/
inductive Status where
  | sent
  | failed
  | dryRun
deriving DecidableEq

/-- One row of the sends table; day is the calendar-day part of the
log-assigned timestamp. -/
structure SendRecord where
  email : String
  name : Option String
  status : Status
  day : Nat
  error_message : Option String
deriving DecidableEq

/-- The sends table, append-only. -/
abbrev Log := List SendRecord

/-- log_send: INSERT INTO sends (email, name, status, error_message), with the
timestamp day assigned at write time. -/
def log_send (log : Log) (today : Nat) (email : String) (name : Option String)
    (status : Status) (error_message : Option String) : Log :=
  log ++ [{ email := email, name := name, status := status, day := today,
            error_message := error_message }]

/-- The query SELECT email FROM sends WHERE status IN (sent, dry-run) AND
date(timestamp) = date(now). -/
def query_sent_today (log : Log) (today : Nat) : List String :=
  (log.filter (fun row =>
    (row.status == Status.sent || row.status == Status.dryRun) && row.day == today)).map
    (fun row => row.email)

/-- One row of the recipients DataFrame: the email column and the optional
name column. -/
structure Recipient where
  email : String
  name : Option String
deriving DecidableEq

/-- Environment-derived configuration, read through os.getenv.  String options
with defaults are plain strings; the three credential strings are none when
the variable is unset (an empty string is handled by the truthiness test
below).  SMTP_PORT is int-converted with default 587; PER_EMAIL_DELAY_SEC is a
signed number, since time.sleep rejects negative values at run time. -/
structure Config where
  from_name : String
  from_email : String
  company_name : String
  unsubscribe_link : String
  smtp_host : Option String
  smtp_port : Nat
  smtp_user : Option String
  smtp_password : Option String
  per_email_delay : Rat
  total_per_day : Nat
  batch_size : Nat
  batch_interval : Nat

/-- Python truthiness of an optional string: None and the empty string are
falsy. -/
def truthyStr : Option String → Bool
  | none => false
  | some s => !(s == "")

/-- The check at the top of send_batch: not all([smtp_host, smtp_port,
smtp_user, smtp_password]); an integer port is falsy exactly when it is 0. -/
def smtpConfigured (cfg : Config) : Bool :=
  truthyStr cfg.smtp_host && !(cfg.smtp_port == 0) &&
    truthyStr cfg.smtp_user && truthyStr cfg.smtp_password

/-- Outcome of opening the SMTP session for one batch: entering smtplib.SMTP,
starttls and login either succeed, raise SMTPAuthenticationError, or raise
some other exception whose str is carried. -/
inductive ConnectResult where
  | ok
  | authError
  | connError (msg : String)
deriving DecidableEq

/-- Oracle for the external SMTP collaborator during one batch: the connection
outcome, and for recipient index i and attempt index a, none when
server.send_message succeeds and the str of the raised exception otherwise. -/
structure Transport where
  connect : ConnectResult
  sendResult : Nat → Nat → Option String

/-- An EmailMessage as far as this program populates it. -/
structure Message where
  msgFrom : String
  msgTo : String
  msgSubject : String
  msgBody : String
deriving DecidableEq

/-- Python: recipient_name or the literal there (None and the empty string
fall back). -/
def nameOrThere : Option String → String
  | none => "there"
  | some s => if s = "" then "there" else s

/-- create_message: builds the EmailMessage, formatting the body template with
the keyword arguments name, company_name, unsubscribe_link.  An error is the
str of the exception raised by str.format. -/
def create_message (cfg : Config) (recipient_email : String) (recipient_name : Option String)
    (subject body_template : String) : Except String Message :=
  match pyFormat [("name", nameOrThere recipient_name),
                  ("company_name", cfg.company_name),
                  ("unsubscribe_link", cfg.unsubscribe_link)] body_template with
  | Except.error e => Except.error e
  | Except.ok body =>
    Except.ok { msgFrom := cfg.from_name ++ " <" ++ cfg.from_email ++ ">",
                msgTo := recipient_email, msgSubject := subject, msgBody := body }

/-- Result of the retry loop for one recipient: the log afterwards, how many
server.send_message calls were made, and the backoff sleeps requested. -/
structure RetryResult where
  log : Log
  sendCalls : Nat
  sleeps : List Rat

/-- The inner for attempt in range(3) loop of send_batch for one recipient at
batch index i, entered with the remaining iteration count 3 and the Python
loop index attempt 0: each attempt builds the message and calls send; on
success a sent row is logged; on failure, backoff of 2 to the power attempt
before the next attempt, and a failed row with the str of the exception after
the last attempt (the last-attempt test attempt less than 2 is the condition
of the source).  An exception from create_message is caught by the same
per-attempt handler. -/
def sendWithRetries (cfg : Config) (tr : Transport) (subject body_template : String)
    (today : Nat) (i : Nat) (r : Recipient) : Nat → Nat → Log → RetryResult
  | _, 0, log => { log := log, sendCalls := 0, sleeps := [] }
  | attempt, remaining + 1, log =>
    match create_message cfg r.email r.name subject body_template with
    | Except.error e =>
      if attempt < 2 then
        let rest := sendWithRetries cfg tr subject body_template today i r (attempt + 1)
          remaining log
        { log := rest.log, sendCalls := rest.sendCalls,
          sleeps := ((2 : Rat) ^ attempt) :: rest.sleeps }
      else { log := log_send log today r.email r.name Status.failed (some e),
             sendCalls := 0, sleeps := [] }
    | Except.ok _ =>
      match tr.sendResult i attempt with
      | none => { log := log_send log today r.email r.name Status.sent none,
                  sendCalls := 1, sleeps := [] }
      | some e =>
        if attempt < 2 then
          let rest := sendWithRetries cfg tr subject body_template today i r (attempt + 1)
            remaining log
          { log := rest.log, sendCalls := rest.sendCalls + 1,
            sleeps := ((2 : Rat) ^ attempt) :: rest.sleeps }
        else { log := log_send log today r.email r.name Status.failed (some e),
               sendCalls := 1, sleeps := [] }

/-- Result of the per-recipient loop of send_batch. -/
structure ProcResult where
  log : Log
  sendCalls : Nat
  sleeps : List Rat

/-- The for row in recipients loop inside the with-block of send_batch.  In a
dry run: log a dry-run row, sleep 0.1, continue (the continue skips the
per-email delay).  Otherwise: run the retry loop, then the per-email pacing
sleep, which raises ValueError when the configured delay is negative; that
exception escapes the loop, carrying the log and trace accumulated so far. -/
def processRecipients (cfg : Config) (tr : Transport) (subject body_template : String)
    (dry_run : Bool) (today : Nat) :
    List Recipient → Nat → Log → Except (String × ProcResult) ProcResult
  | [], _, log => Except.ok { log := log, sendCalls := 0, sleeps := [] }
  | r :: rest, i, log =>
    if dry_run then
      let log2 := log_send log today r.email r.name Status.dryRun none
      match processRecipients cfg tr subject body_template dry_run today rest (i + 1) log2 with
      | Except.ok pr =>
        Except.ok { log := pr.log, sendCalls := pr.sendCalls,
                    sleeps := ((1 : Rat) / 10) :: pr.sleeps }
      | Except.error (m, pr) =>
        Except.error (m, { log := pr.log, sendCalls := pr.sendCalls,
                           sleeps := ((1 : Rat) / 10) :: pr.sleeps })
    else
      let res := sendWithRetries cfg tr subject body_template today i r 0 3 log
      if cfg.per_email_delay < 0 then
        Except.error ("sleep length must be non-negative",
          { log := res.log, sendCalls := res.sendCalls, sleeps := res.sleeps })
      else
        match processRecipients cfg tr subject body_template dry_run today rest (i + 1) res.log with
        | Except.ok pr =>
          Except.ok { log := pr.log, sendCalls := res.sendCalls + pr.sendCalls,
                      sleeps := res.sleeps ++ (cfg.per_email_delay :: pr.sleeps) }
        | Except.error (m, pr) =>
          Except.error (m, { log := pr.log, sendCalls := res.sendCalls + pr.sendCalls,
                             sleeps := res.sleeps ++ (cfg.per_email_delay :: pr.sleeps) })

/-- Observable trace of one send_batch call: the log afterwards, whether the
smtplib.SMTP session was entered, how many send calls were made, the sleeps
requested inside the with-block, and whether the missing-configuration error
message was printed. -/
structure BatchTrace where
  log : Log
  sessionOpened : Bool
  sendCalls : Nat
  sleeps : List Rat
  configError : Bool

/-- The two batch-level exception handlers of send_batch: log every recipient
of the batch as failed with the given message. -/
def logAllFailed (log : Log) (today : Nat) (recipients : List Recipient) (msg : String) : Log :=
  recipients.foldl (fun l r => log_send l today r.email r.name Status.failed (some msg)) log

/-- send_batch: return at once (printing an error, logging nothing) when the
SMTP settings are not all configured; otherwise open the session, and on
SMTPAuthenticationError log every recipient failed with the literal message
from the source, on any other connection exception log every recipient failed
with its str; with a session, run the per-recipient loop, and if an exception
escapes it, the generic handler again logs every recipient of the batch as
failed. -/
def send_batch (cfg : Config) (tr : Transport) (recipients : List Recipient)
    (subject body_template : String) (dry_run : Bool) (today : Nat) (log : Log) : BatchTrace :=
  if !(smtpConfigured cfg) then
    { log := log, sessionOpened := false, sendCalls := 0, sleeps := [], configError := true }
  else
    match tr.connect with
    | ConnectResult.authError =>
      { log := logAllFailed log today recipients "SMTP Authentication Error",
        sessionOpened := true, sendCalls := 0, sleeps := [], configError := false }
    | ConnectResult.connError msg =>
      { log := logAllFailed log today recipients msg,
        sessionOpened := true, sendCalls := 0, sleeps := [], configError := false }
    | ConnectResult.ok =>
      match processRecipients cfg tr subject body_template dry_run today recipients 0 log with
      | Except.ok pr =>
        { log := pr.log, sessionOpened := true, sendCalls := pr.sendCalls,
          sleeps := pr.sleeps, configError := false }
      | Except.error (m, pr) =>
        { log := logAllFailed pr.log today recipients m,
          sessionOpened := true, sendCalls := pr.sendCalls,
          sleeps := pr.sleeps, configError := false }

/-- Accumulated observables of the batch loop of run_campaign. -/
structure LoopResult where
  log : Log
  batches : List (List Recipient)
  interBatchSleeps : Nat
  sendCalls : Nat
  configErrors : Nat

/-- The for i in range(num_batches) loop of run_campaign: slice batch i out of
the filtered recipients, call send_batch on it (batch i uses its own SMTP
session), and sleep the batch interval when i is not the last index.  The
remaining iteration count drives the recursion; i is the Python loop index. -/
def campaignLoop (cfg : Config) (transports : Nat → Transport) (subject body_template : String)
    (dry_run : Bool) (today : Nat) (rts : List Recipient) (num_batches : Nat) :
    Nat → Nat → Log → LoopResult
  | _, 0, log => { log := log, batches := [], interBatchSleeps := 0, sendCalls := 0,
                   configErrors := 0 }
  | i, remaining + 1, log =>
    let batch := (rts.drop (i * cfg.batch_size)).take cfg.batch_size
    let btr := send_batch cfg (transports i) batch subject body_template dry_run today log
    let rest := campaignLoop cfg transports subject body_template dry_run today rts
      num_batches (i + 1) remaining btr.log
    { log := rest.log
      batches := batch :: rest.batches
      interBatchSleeps := (if i < num_batches - 1 then 1 else 0) + rest.interBatchSleeps
      sendCalls := btr.sendCalls + rest.sendCalls
      configErrors := (if btr.configError then 1 else 0) + rest.configErrors }

/-- Observable outcome of one run_campaign call. -/
structure RunResult where
  log : Log
  eligible : List Recipient
  batches : List (List Recipient)
  interBatchSleeps : Nat
  sendCalls : Nat
  configErrorReports : Nat
  noop : Bool

/-- run_campaign: query the log for emails already sent or dry-run today,
drop recipients whose email is in that set (pandas isin keeps relative order
and duplicates), truncate to the first total_per_day rows with head, return a
no-op when nothing is left, otherwise process ceil-many batches.  The input
DataFrame is modelled as the list of its rows, the email-column presence being
a precondition of the embedding (no claim concerns the missing-column path). -/
def run_campaign (cfg : Config) (transports : Nat → Transport) (recipients : List Recipient)
    (subject body_template : String) (dry_run : Bool) (today : Nat) (log : Log) : RunResult :=
  let already := query_sent_today log today
  let recipients_to_send :=
    (recipients.filter (fun r => !(already.contains r.email))).take cfg.total_per_day
  if recipients_to_send.isEmpty then
    { log := log, eligible := recipients_to_send, batches := [], interBatchSleeps := 0,
      sendCalls := 0, configErrorReports := 0, noop := true }
  else
    let num_batches := (recipients_to_send.length + cfg.batch_size - 1) / cfg.batch_size
    let res := campaignLoop cfg transports subject body_template dry_run today
      recipients_to_send num_batches 0 num_batches log
    { log := res.log, eligible := recipients_to_send, batches := res.batches,
      interBatchSleeps := res.interBatchSleeps, sendCalls := res.sendCalls,
      configErrorReports := res.configErrors, noop := false }

/-- The row log_send writes for a dry-run outcome. -/
def dryRow (today : Nat) (r : Recipient) : SendRecord :=
  { email := r.email, name := r.name, status := Status.dryRun, day := today,
    error_message := none }

/-- The row log_send writes for a failed outcome with message msg. -/
def failedRow (today : Nat) (msg : String) (r : Recipient) : SendRecord :=
  { email := r.email, name := r.name, status := Status.failed, day := today,
    error_message := some msg }

/-- The row log_send writes for a successful send. -/
def sentRow (today : Nat) (r : Recipient) : SendRecord :=
  { email := r.email, name := r.name, status := Status.sent, day := today,
    error_message := none }

/-- Number of rows of the log whose email column equals e. -/
def rowCountFor (log : Log) (e : String) : Nat :=
  (log.filter (fun row => row.email == e)).length

/-- Number of occurrences of the email e in a recipient list. -/
def occCount (rs : List Recipient) (e : String) : Nat :=
  (rs.filter (fun r => r.email == e)).length

/-- Eligible set stated from the words of the spec for claim C1: the first
total_per_day entries of the input list after removing exactly those emails
that have a sent or dry-run status row whose timestamp falls on the current
calendar day, in original relative order. -/
def spec_eligible (recipients : List Recipient) (log : Log) (today cap : Nat) :
    List Recipient :=
  (recipients.filter (fun r =>
    !(log.any (fun row => row.email == r.email &&
      (row.status == Status.sent || row.status == Status.dryRun) && row.day == today)))).take cap

/-- Message that the batch-level handlers of send_batch log when opening or
authenticating the session fails: the literal string for
SMTPAuthenticationError, the str of the exception otherwise. -/
def connect_failure_message : ConnectResult → Option String
  | ConnectResult.ok => none
  | ConnectResult.authError => some "SMTP Authentication Error"
  | ConnectResult.connError m => some m

/-- A template presented as the spec describes it: literal text interleaved
with named placeholders. -/
inductive TemplatePart where
  | lit (s : String)
  | field (k : String)
deriving DecidableEq

/-- Render a list of template parts to the concrete template string, placing
each field name between braces. -/
def renderTemplate : List TemplatePart → String
  | [] => ""
  | TemplatePart.lit s :: ps => s ++ renderTemplate ps
  | TemplatePart.field k :: ps =>
    String.singleton lbChar ++ k ++ String.singleton rbChar ++ renderTemplate ps

/-- True when the string contains no brace character. -/
def braceFree (s : String) : Bool :=
  s.data.all (fun c => !(c == lbChar) && !(c == rbChar))

/-- Characters of a plain identifier-like field name: letters, digits and the
underscore.  This excludes braces and also the exclamation, colon, dot and
bracket characters that begin the conversion, format-spec, attribute and
index syntax of CPython replacement fields. -/
def plainKeyChar (c : Char) : Bool := c.isAlpha || c.isDigit || c == Char.ofNat 95

/-- A plain keyword field name as CPython parses it: non-empty, made only of
identifier characters, and not all digits (an all-digit name is a positional
index instead).  On such fields CPython looks up the whole name as a keyword
argument, which is what the format model does. -/
def plainFieldKey (k : String) : Bool :=
  !(k == "") && k.data.all plainKeyChar && !(k.data.all Char.isDigit)

/-- Well-formed template parts: literal pieces without braces and placeholder
names that are plain keyword field names — the fragment of str.format on
which the model is exact. -/
def wellFormedParts : List TemplatePart → Bool
  | [] => true
  | TemplatePart.lit s :: ps => braceFree s && wellFormedParts ps
  | TemplatePart.field k :: ps => plainFieldKey k && wellFormedParts ps

/-- Reference substitution over template parts: a literal passes through, a
field in the mapping is replaced by its value, and the first field outside the
mapping raises a KeyError naming it. -/
def substParts (mapping : List (String × String)) : List TemplatePart → Except String String
  | [] => Except.ok ""
  | TemplatePart.lit s :: ps => (substParts mapping ps).map (fun t => s ++ t)
  | TemplatePart.field k :: ps =>
    match mapping.lookup k with
    | some v => (substParts mapping ps).map (fun t => v ++ t)
    | none => Except.error (pyKeyError k)

/-- Concrete configuration with all SMTP credentials present, used by the
evaluation witnesses. -/
def sampleCfg : Config :=
  { from_name := "Me", from_email := "me@x.com", company_name := "ACME",
    unsubscribe_link := "http://u.example", smtp_host := some "smtp.example",
    smtp_port := 587, smtp_user := some "user", smtp_password := some "pw",
    per_email_delay := 1, total_per_day := 100, batch_size := 20, batch_interval := 600 }

/-- Sample configuration with a negative per-email delay, making the pacing
sleep raise mid-batch. -/
def cfgNegDelay : Config := { sampleCfg with per_email_delay := -1 }

/-- Sample configuration with the SMTP password unset and batch size 1. -/
def cfgNoPassword : Config := { sampleCfg with smtp_password := none, batch_size := 1 }

/-- Sample configuration with a daily cap of one recipient. -/
def cfgCapOne : Config := { sampleCfg with total_per_day := 1 }

/-- Sample configuration with batch size two. -/
def cfgBatchTwo : Config := { sampleCfg with batch_size := 2 }

/-- Transport oracle whose connection and every send succeed. -/
def transportOk : Transport := { connect := ConnectResult.ok, sendResult := fun _ _ => none }

/-- Transport oracle whose login raises SMTPAuthenticationError. -/
def transportAuth : Transport :=
  { connect := ConnectResult.authError, sendResult := fun _ _ => none }

/-- Transport oracle that connects but fails every send with the same text. -/
def transportSendFail : Transport :=
  { connect := ConnectResult.ok, sendResult := fun _ _ => some "boom" }

/-- Sample recipient with a name. -/
def recipA : Recipient := { email := "a@x.com", name := some "Al" }

/-- Sample recipient without a name. -/
def recipB : Recipient := { email := "b@x.com", name := none }

/-- Sample recipient without a name. -/
def recipC : Recipient := { email := "c@x.com", name := none }

/-- A second input row carrying the same email address as recipA. -/
def recipA2 : Recipient := { email := "a@x.com", name := none }

lemma log_send_eq (log : Log) (today : Nat) (e : String) (n : Option String)
    (st : Status) (err : Option String) :
    log_send log today e n st err =
      log ++ [{ email := e, name := n, status := st, day := today, error_message := err }] := rfl

lemma logAllFailed_eq (today : Nat) (msg : String) :
    ∀ (rs : List Recipient) (log : Log),
      logAllFailed log today rs msg = log ++ rs.map (failedRow today msg) := by
  intro rs
  induction rs with
  | nil => intro log; simp [logAllFailed]
  | cons r rest ih =>
    intro log
    simp [logAllFailed, List.foldl_cons, log_send] at *
    simpa [failedRow] using ih (log ++ [failedRow today msg r])

lemma mem_query_sent_today {log : Log} {today : Nat} {e : String} :
    e ∈ query_sent_today log today ↔
      ∃ row ∈ log, row.email = e ∧ (row.status = Status.sent ∨ row.status = Status.dryRun) ∧
        row.day = today := by
  simp only [query_sent_today, List.mem_map, List.mem_filter, Bool.and_eq_true,
    Bool.or_eq_true, beq_iff_eq]
  constructor
  · rintro ⟨row, ⟨hmem, hstat, hday⟩, he⟩
    exact ⟨row, hmem, he, hstat, hday⟩
  · rintro ⟨row, hmem, he, hstat, hday⟩
    exact ⟨row, ⟨hmem, hstat, hday⟩, he⟩

lemma contains_query_eq (log : Log) (today : Nat) (e : String) :
    (query_sent_today log today).contains e =
      log.any (fun row => row.email == e &&
        (row.status == Status.sent || row.status == Status.dryRun) && row.day == today) := by
  rw [Bool.eq_iff_iff]
  simp only [List.contains_iff_exists_mem_beq, beq_iff_eq, List.any_eq_true,
    Bool.and_eq_true, Bool.or_eq_true]
  constructor
  · rintro ⟨x, hx, rfl⟩
    rcases mem_query_sent_today.mp hx with ⟨row, hmem, he, hstat, hday⟩
    exact ⟨row, hmem, ⟨he, hstat⟩, hday⟩
  · rintro ⟨row, hmem, ⟨he, hstat⟩, hday⟩
    exact ⟨row.email, mem_query_sent_today.mpr ⟨row, hmem, rfl, hstat, hday⟩, he.symm⟩

lemma rowCountFor_append (l1 l2 : Log) (e : String) :
    rowCountFor (l1 ++ l2) e = rowCountFor l1 e + rowCountFor l2 e := by
  simp [rowCountFor, List.filter_append]

lemma sendWithRetries_appends (cfg : Config) (tr : Transport) (subject body_template : String)
    (today : Nat) (i : Nat) (r : Recipient) :
    ∀ (remaining attempt : Nat) (log : Log), 3 ≤ attempt + remaining → attempt < 3 →
    ∃ st err, st ≠ Status.dryRun ∧
      (sendWithRetries cfg tr subject body_template today i r attempt remaining log).log =
        log ++ [{ email := r.email, name := r.name, status := st, day := today,
                  error_message := err }] := by
  intro remaining
  induction remaining with
  | zero => intro attempt log hf ha; omega
  | succ n ih =>
    intro attempt log hf ha
    rw [sendWithRetries]
    cases hcm : create_message cfg r.email r.name subject body_template with
    | error e =>
      by_cases h2 : attempt < 2
      · simp only [h2, if_true]
        rcases ih (attempt + 1) log (by omega) (by omega) with ⟨st, err, hst, heq⟩
        exact ⟨st, err, hst, heq⟩
      · simp only [h2, if_false]
        exact ⟨Status.failed, some e, by simp, by simp [log_send]⟩
    | ok m =>
      cases hsr : tr.sendResult i attempt with
      | none => exact ⟨Status.sent, none, by simp, by simp [log_send]⟩
      | some e =>
        by_cases h2 : attempt < 2
        · simp only [h2, if_true]
          rcases ih (attempt + 1) log (by omega) (by omega) with ⟨st, err, hst, heq⟩
          exact ⟨st, err, hst, heq⟩
        · simp only [h2, if_false]
          exact ⟨Status.failed, some e, by simp, by simp [log_send]⟩

lemma occCount_cons (r : Recipient) (rs : List Recipient) (e : String) :
    occCount (r :: rs) e = (if r.email == e then 1 else 0) + occCount rs e := by
  by_cases h : r.email == e <;> simp [occCount, List.filter_cons, h, Nat.add_comm]

lemma rowCountFor_single (row : SendRecord) (e : String) :
    rowCountFor [row] e = if row.email == e then 1 else 0 := by
  by_cases h : row.email == e <;> simp [rowCountFor, List.filter_cons, h]

lemma processRecipients_dry (cfg : Config) (tr : Transport) (subject body_template : String)
    (today : Nat) :
    ∀ (rs : List Recipient) (i : Nat) (log : Log),
      processRecipients cfg tr subject body_template true today rs i log =
        Except.ok { log := log ++ rs.map (dryRow today), sendCalls := 0,
                    sleeps := List.replicate rs.length ((1 : Rat) / 10) } := by
  intro rs
  induction rs with
  | nil => intro i log; simp [processRecipients]
  | cons r rest ih =>
    intro i log
    simp only [processRecipients, if_true, ih (i + 1), log_send, List.map_cons,
      List.length_cons, List.replicate_succ]
    simp [dryRow]

lemma processRecipients_count (cfg : Config) (tr : Transport) (subject body_template : String)
    (dry_run : Bool) (today : Nat) (hdelay : 0 ≤ cfg.per_email_delay) :
    ∀ (rs : List Recipient) (i : Nat) (log : Log),
      ∃ pr, processRecipients cfg tr subject body_template dry_run today rs i log =
          Except.ok pr ∧
        ∀ e, rowCountFor pr.log e = rowCountFor log e + occCount rs e := by
  intro rs
  induction rs with
  | nil =>
    intro i log
    exact ⟨_, rfl, fun e => by simp [occCount]⟩
  | cons r rest ih =>
    intro i log
    by_cases hd : dry_run = true
    · subst hd
      rcases ih (i + 1) (log_send log today r.email r.name Status.dryRun none) with ⟨pr, hpr, hcnt⟩
      refine ⟨{ log := pr.log, sendCalls := pr.sendCalls,
                sleeps := ((1 : Rat) / 10) :: pr.sleeps }, ?_, fun e => ?_⟩
      · simp [processRecipients, hpr]
      · show rowCountFor pr.log e = rowCountFor log e + occCount (r :: rest) e
        have h1 := hcnt e
        simp only [log_send, rowCountFor_append, rowCountFor_single] at h1
        simp only [occCount_cons, h1]
        by_cases he : (r.email == e) = true
        · simp [he]
          omega
        · simp [he]
    · simp only [Bool.not_eq_true] at hd
      subst hd
      rcases sendWithRetries_appends cfg tr subject body_template today i r 3 0 log (by omega)
        (by omega) with ⟨st, err, _, heq⟩
      rcases ih (i + 1) (sendWithRetries cfg tr subject body_template today i r 0 3 log).log with
        ⟨pr, hpr, hcnt⟩
      refine ⟨{ log := pr.log,
                sendCalls := (sendWithRetries cfg tr subject body_template today i r 0 3 log).sendCalls
                  + pr.sendCalls,
                sleeps := (sendWithRetries cfg tr subject body_template today i r 0 3 log).sleeps
                  ++ (cfg.per_email_delay :: pr.sleeps) }, ?_, fun e => ?_⟩
      · simp only [processRecipients, Bool.false_eq_true, if_false,
          if_neg (not_lt.mpr hdelay), hpr]
      · show rowCountFor pr.log e = rowCountFor log e + occCount (r :: rest) e
        have h1 := hcnt e
        rw [heq, rowCountFor_append, rowCountFor_single] at h1
        simp only [occCount_cons, h1]
        by_cases he : (r.email == e) = true
        · simp [he]
          omega
        · simp [he]

lemma campaignLoop_batches (cfg : Config) (transports : Nat → Transport)
    (subject body_template : String) (dry_run : Bool) (today : Nat)
    (rts : List Recipient) (num_batches : Nat) :
    ∀ (remaining i : Nat) (log : Log),
      (campaignLoop cfg transports subject body_template dry_run today rts num_batches
          i remaining log).batches =
        (List.range remaining).map
          (fun k => (rts.drop ((i + k) * cfg.batch_size)).take cfg.batch_size) := by
  intro remaining
  induction remaining with
  | zero => intro i log; simp [campaignLoop]
  | succ n ih =>
    intro i log
    simp only [campaignLoop, ih (i + 1)]
    rw [List.range_succ_eq_map, List.map_cons, List.map_map]
    simp only [Nat.add_zero]
    congr 1
    apply List.map_congr_left
    intro k _
    simp only [Function.comp_apply]
    have h : i + 1 + k = i + (k + 1) := by omega
    rw [h]

lemma campaignLoop_sleeps (cfg : Config) (transports : Nat → Transport)
    (subject body_template : String) (dry_run : Bool) (today : Nat)
    (rts : List Recipient) (num_batches : Nat) :
    ∀ (remaining i : Nat) (log : Log), i + remaining = num_batches →
      (campaignLoop cfg transports subject body_template dry_run today rts num_batches
          i remaining log).interBatchSleeps = remaining - 1 := by
  intro remaining
  induction remaining with
  | zero => intro i log _; simp [campaignLoop]
  | succ n ih =>
    intro i log hnum
    simp only [campaignLoop]
    rw [ih (i + 1) _ (by omega)]
    by_cases hn : 0 < n
    · rw [if_pos (by omega)]
      omega
    · rw [if_neg (by omega)]
      omega

lemma campaignLoop_configErr (cfg : Config) (transports : Nat → Transport)
    (subject body_template : String) (dry_run : Bool) (today : Nat)
    (rts : List Recipient) (num_batches : Nat) (hcfg : smtpConfigured cfg = false) :
    ∀ (remaining i : Nat) (log : Log),
      (campaignLoop cfg transports subject body_template dry_run today rts num_batches
          i remaining log).log = log ∧
      (campaignLoop cfg transports subject body_template dry_run today rts num_batches
          i remaining log).sendCalls = 0 ∧
      (campaignLoop cfg transports subject body_template dry_run today rts num_batches
          i remaining log).configErrors = remaining := by
  intro remaining
  induction remaining with
  | zero => intro i log; simp [campaignLoop]
  | succ n ih =>
    intro i log
    rcases ih (i + 1) log with ⟨h1, h2, h3⟩
    simp only [campaignLoop, send_batch, hcfg, Bool.not_false, if_true]
    refine ⟨h1, ?_, ?_⟩
    · rw [h2]
    · rw [h3]
      omega

lemma campaignLoop_dry_log (cfg : Config) (transports : Nat → Transport)
    (subject body_template : String) (today : Nat) (rts : List Recipient) (num_batches : Nat)
    (hcfg : smtpConfigured cfg = true)
    (hconn : ∀ i, (transports i).connect = ConnectResult.ok) :
    ∀ (remaining i : Nat) (log : Log),
      rts.length ≤ (i + remaining) * cfg.batch_size →
      (campaignLoop cfg transports subject body_template true today rts num_batches
          i remaining log).log =
        log ++ (rts.drop (i * cfg.batch_size)).map (dryRow today) := by
  intro remaining
  induction remaining with
  | zero =>
    intro i log hlen
    simp only [Nat.add_zero] at hlen
    simp [campaignLoop, List.drop_eq_nil_of_le hlen]
  | succ n ih =>
    intro i log hlen
    have hlen2 : rts.length ≤ (i + 1 + n) * cfg.batch_size := by
      have : i + 1 + n = i + (n + 1) := by omega
      rw [this]; exact hlen
    simp only [campaignLoop, send_batch, hcfg, Bool.not_true, Bool.false_eq_true, if_false,
      hconn i, processRecipients_dry]
    rw [ih (i + 1) _ hlen2]
    rw [List.append_assoc, ← List.map_append]
    congr 2
    have hdd : rts.drop ((i + 1) * cfg.batch_size) =
        (rts.drop (i * cfg.batch_size)).drop cfg.batch_size := by
      rw [List.drop_drop]
      congr 1
      rw [Nat.succ_mul]
    rw [hdd, List.take_append_drop]

lemma le_ceil_mul (B len : Nat) (hB : 0 < B) : len ≤ ((len + B - 1) / B) * B := by
  have hdm := Nat.div_add_mod (len + B - 1) B
  have hmod := Nat.mod_lt (len + B - 1) hB
  rw [Nat.mul_comm] at hdm
  generalize hqB : (len + B - 1) / B * B = QB at *
  omega

lemma ceil_one_le (B len : Nat) (hB : 0 < B) (hlen : 0 < len) : 1 ≤ (len + B - 1) / B := by
  rw [Nat.le_div_iff_mul_le hB]
  omega

lemma ceil_sub_one_mul_lt (B len : Nat) (hB : 0 < B) (hlen : 0 < len) :
    ((len + B - 1) / B - 1) * B < len := by
  have hup := Nat.div_mul_le_self (len + B - 1) B
  have h1 := ceil_one_le B len hB hlen
  have hsub : ((len + B - 1) / B - 1) * B = (len + B - 1) / B * B - B := by
    rw [Nat.sub_mul, Nat.one_mul]
  have hQ : B ≤ (len + B - 1) / B * B := by
    calc B = 1 * B := (Nat.one_mul B).symm
    _ ≤ (len + B - 1) / B * B := Nat.mul_le_mul_right B h1
  rw [hsub]
  generalize (len + B - 1) / B * B = QB at *
  omega

lemma occCount_append (l1 l2 : List Recipient) (e : String) :
    occCount (l1 ++ l2) e = occCount l1 e + occCount l2 e := by
  simp [occCount, List.filter_append]

lemma rowCountFor_map (f : Recipient → SendRecord) (hf : ∀ r, (f r).email = r.email) :
    ∀ (rs : List Recipient) (e : String), rowCountFor (rs.map f) e = occCount rs e := by
  intro rs e
  induction rs with
  | nil => simp [rowCountFor, occCount]
  | cons r rest ih =>
    rw [List.map_cons, show (f r :: rest.map f : Log) = [f r] ++ rest.map f from rfl,
      rowCountFor_append, rowCountFor_single, hf r, ih, occCount_cons]

lemma send_batch_dry (cfg : Config) (tr : Transport) (recipients : List Recipient)
    (subject body_template : String) (today : Nat) (log : Log)
    (hcfg : smtpConfigured cfg = true) (hconn : tr.connect = ConnectResult.ok) :
    send_batch cfg tr recipients subject body_template true today log =
      { log := log ++ recipients.map (dryRow today), sessionOpened := true, sendCalls := 0,
        sleeps := List.replicate recipients.length ((1 : Rat) / 10), configError := false } := by
  simp [send_batch, hcfg, hconn, processRecipients_dry]

lemma send_batch_connect_fail (cfg : Config) (tr : Transport) (recipients : List Recipient)
    (subject body_template : String) (dry_run : Bool) (today : Nat) (log : Log) (msg : String)
    (hcfg : smtpConfigured cfg = true)
    (hmsg : connect_failure_message tr.connect = some msg) :
    send_batch cfg tr recipients subject body_template dry_run today log =
      { log := log ++ recipients.map (failedRow today msg), sessionOpened := true,
        sendCalls := 0, sleeps := [], configError := false } := by
  cases hc : tr.connect with
  | ok => rw [hc] at hmsg; exact absurd hmsg (by simp [connect_failure_message])
  | authError =>
    rw [hc] at hmsg
    simp only [connect_failure_message, Option.some.injEq] at hmsg
    subst hmsg
    simp [send_batch, hcfg, hc, logAllFailed_eq]
  | connError m =>
    rw [hc] at hmsg
    simp only [connect_failure_message, Option.some.injEq] at hmsg
    subst hmsg
    simp [send_batch, hcfg, hc, logAllFailed_eq]

lemma send_batch_count (cfg : Config) (tr : Transport) (recipients : List Recipient)
    (subject body_template : String) (dry_run : Bool) (today : Nat) (log : Log) (e : String)
    (hcfg : smtpConfigured cfg = true) (hdelay : 0 ≤ cfg.per_email_delay) :
    rowCountFor (send_batch cfg tr recipients subject body_template dry_run today log).log e =
      rowCountFor log e + occCount recipients e := by
  cases hc : tr.connect with
  | ok =>
    rcases processRecipients_count cfg tr subject body_template dry_run today hdelay
      recipients 0 log with ⟨pr, hpr, hcnt⟩
    simp [send_batch, hcfg, hc, hpr, hcnt e]
  | authError =>
    simp [send_batch, hcfg, hc, logAllFailed_eq, rowCountFor_append,
      rowCountFor_map (failedRow today "SMTP Authentication Error") (fun _ => rfl)]
  | connError m =>
    simp [send_batch, hcfg, hc, logAllFailed_eq, rowCountFor_append,
      rowCountFor_map (failedRow today m) (fun _ => rfl)]

lemma run_campaign_eligible (cfg : Config) (transports : Nat → Transport)
    (recipients : List Recipient) (subject body_template : String) (dry_run : Bool)
    (today : Nat) (log : Log) :
    (run_campaign cfg transports recipients subject body_template dry_run today log).eligible =
      (recipients.filter (fun r => !((query_sent_today log today).contains r.email))).take
        cfg.total_per_day := by
  simp only [run_campaign]
  split <;> rfl

lemma run_campaign_of_empty (cfg : Config) (transports : Nat → Transport)
    (recipients : List Recipient) (subject body_template : String) (dry_run : Bool)
    (today : Nat) (log : Log)
    (h : (recipients.filter (fun r => !((query_sent_today log today).contains r.email))).take
        cfg.total_per_day = []) :
    run_campaign cfg transports recipients subject body_template dry_run today log =
      { log := log, eligible := [], batches := [], interBatchSleeps := 0, sendCalls := 0,
        configErrorReports := 0, noop := true } := by
  simp only [run_campaign, h, List.isEmpty_nil, if_true]

lemma join_chunks {α : Type} (B : Nat) :
    ∀ (n i : Nat) (l : List α), l.length ≤ (i + n) * B →
      ((List.range n).map (fun k => (l.drop ((i + k) * B)).take B)).flatten = l.drop (i * B) := by
  intro n
  induction n with
  | zero =>
    intro i l hlen
    simp only [Nat.add_zero] at hlen
    simp [List.drop_eq_nil_of_le hlen]
  | succ m ih =>
    intro i l hlen
    rw [List.range_succ_eq_map, List.map_cons, List.map_map, List.flatten_cons]
    have hre : (List.map ((fun k => (l.drop ((i + k) * B)).take B) ∘ Nat.succ) (List.range m)) =
        (List.range m).map (fun k => (l.drop ((i + 1 + k) * B)).take B) := by
      apply List.map_congr_left
      intro k _
      simp only [Function.comp_apply]
      have h : i + (k + 1) = i + 1 + k := by omega
      rw [h]
    have hlen2 : l.length ≤ (i + 1 + m) * B := by
      have h : i + 1 + m = i + (m + 1) := by omega
      rw [h]
      exact hlen
    rw [hre, ih (i + 1) l hlen2]
    simp only [Nat.add_zero]
    have hdd : l.drop ((i + 1) * B) = (l.drop (i * B)).drop B := by
      rw [List.drop_drop]
      congr 1
      rw [Nat.succ_mul]
    rw [hdd, List.take_append_drop]

lemma campaignLoop_count (cfg : Config) (transports : Nat → Transport)
    (subject body_template : String) (dry_run : Bool) (today : Nat)
    (rts : List Recipient) (num_batches : Nat) (e : String)
    (hcfg : smtpConfigured cfg = true) (hdelay : 0 ≤ cfg.per_email_delay) :
    ∀ (remaining i : Nat) (log : Log),
      rts.length ≤ (i + remaining) * cfg.batch_size →
      rowCountFor (campaignLoop cfg transports subject body_template dry_run today rts
          num_batches i remaining log).log e =
        rowCountFor log e + occCount (rts.drop (i * cfg.batch_size)) e := by
  intro remaining
  induction remaining with
  | zero =>
    intro i log hlen
    simp only [Nat.add_zero] at hlen
    simp [campaignLoop, List.drop_eq_nil_of_le hlen, occCount]
  | succ n ih =>
    intro i log hlen
    have hlen2 : rts.length ≤ (i + 1 + n) * cfg.batch_size := by
      have h : i + 1 + n = i + (n + 1) := by omega
      rw [h]; exact hlen
    simp only [campaignLoop]
    rw [ih (i + 1) _ hlen2,
      send_batch_count cfg (transports i) _ subject body_template dry_run today log e hcfg hdelay]
    have hdd : rts.drop ((i + 1) * cfg.batch_size) =
        (rts.drop (i * cfg.batch_size)).drop cfg.batch_size := by
      rw [List.drop_drop]
      congr 1
      rw [Nat.succ_mul]
    rw [hdd]
    conv_rhs => rw [← List.take_append_drop cfg.batch_size (rts.drop (i * cfg.batch_size))]
    rw [occCount_append]
    omega

lemma run_campaign_count (cfg : Config) (transports : Nat → Transport)
    (recipients : List Recipient) (subject body_template : String) (dry_run : Bool)
    (today : Nat) (log : Log) (e : String)
    (hcfg : smtpConfigured cfg = true) (hdelay : 0 ≤ cfg.per_email_delay)
    (hB : 0 < cfg.batch_size) :
    rowCountFor (run_campaign cfg transports recipients subject body_template dry_run
        today log).log e =
      rowCountFor log e +
        occCount (run_campaign cfg transports recipients subject body_template dry_run
          today log).eligible e := by
  simp only [run_campaign]
  split
  case isTrue hemp =>
    have h0 := List.isEmpty_iff.mp hemp
    dsimp only
    rw [h0]
    simp [occCount]
  case isFalse hemp =>
    dsimp only
    rw [campaignLoop_count cfg transports subject body_template dry_run today _ _ e hcfg hdelay
      _ 0 log (by rw [Nat.zero_add]; exact le_ceil_mul cfg.batch_size _ hB)]
    simp

lemma run_campaign_dry_log_full (cfg : Config) (transports : Nat → Transport)
    (recipients : List Recipient) (subject body_template : String) (today : Nat) (log : Log)
    (hcfg : smtpConfigured cfg = true)
    (hconn : ∀ i, (transports i).connect = ConnectResult.ok)
    (hB : 0 < cfg.batch_size) :
    (run_campaign cfg transports recipients subject body_template true today log).log =
      log ++ ((recipients.filter
        (fun r => !((query_sent_today log today).contains r.email))).take
          cfg.total_per_day).map (dryRow today) := by
  simp only [run_campaign]
  split
  case isTrue hemp =>
    have h0 := List.isEmpty_iff.mp hemp
    dsimp only
    rw [h0]
    simp
  case isFalse hemp =>
    dsimp only
    rw [campaignLoop_dry_log cfg transports subject body_template today _ _ hcfg hconn
      _ 0 log (by rw [Nat.zero_add]; exact le_ceil_mul cfg.batch_size _ hB)]
    simp

lemma join_chunks_zero {α : Type} (B : Nat) (hB : 0 < B) (l : List α) :
    ((List.range ((l.length + B - 1) / B)).map
      (fun k => (l.drop (k * B)).take B)).flatten = l := by
  have h := join_chunks B ((l.length + B - 1) / B) 0 l
    (by rw [Nat.zero_add]; exact le_ceil_mul B l.length hB)
  simpa using h

lemma getD_map_range {α : Type} (f : Nat → α) (d : α) (n k : Nat) (hk : k < n) :
    ((List.range n).map f).getD k d = f k := by
  rw [List.getD_eq_getElem?_getD, List.getElem?_map, List.getElem?_range hk]
  rfl

lemma chunk_length {α : Type} (l : List α) (B k : Nat) (h : (k + 1) * B ≤ l.length) :
    ((l.drop (k * B)).take B).length = B := by
  rw [Nat.succ_mul] at h
  simp only [List.length_take, List.length_drop]
  omega

lemma run_campaign_batches_eq (cfg : Config) (transports : Nat → Transport)
    (recipients : List Recipient) (subject body_template : String) (dry_run : Bool)
    (today : Nat) (log : Log) :
    (run_campaign cfg transports recipients subject body_template dry_run today log).batches =
      (List.range (((run_campaign cfg transports recipients subject body_template dry_run
          today log).eligible.length + cfg.batch_size - 1) / cfg.batch_size)).map
        (fun k => ((run_campaign cfg transports recipients subject body_template dry_run
          today log).eligible.drop (k * cfg.batch_size)).take cfg.batch_size) := by
  rw [run_campaign_eligible]
  simp only [run_campaign]
  split
  case isTrue hemp =>
    dsimp only
    rw [List.isEmpty_iff.mp hemp]
    have h0 : (cfg.batch_size - 1) / cfg.batch_size = 0 := by
      rcases Nat.eq_zero_or_pos cfg.batch_size with hb | hb
      · simp [hb]
      · exact Nat.div_eq_of_lt (by omega)
    simp [h0]
  case isFalse hemp =>
    dsimp only
    rw [campaignLoop_batches]
    apply List.map_congr_left
    intro k _
    rw [Nat.zero_add]

lemma run_campaign_sleeps_eq (cfg : Config) (transports : Nat → Transport)
    (recipients : List Recipient) (subject body_template : String) (dry_run : Bool)
    (today : Nat) (log : Log) :
    (run_campaign cfg transports recipients subject body_template dry_run today log).interBatchSleeps =
      (run_campaign cfg transports recipients subject body_template dry_run
        today log).batches.length - 1 := by
  simp only [run_campaign]
  split
  case isTrue hemp => rfl
  case isFalse hemp =>
    dsimp only
    rw [campaignLoop_sleeps cfg transports subject body_template dry_run today _ _ _ 0 log
      (by omega), campaignLoop_batches]
    simp

lemma contains_eq_true_iff (l : List String) (e : String) : l.contains e = true ↔ e ∈ l := by
  simp [List.contains_iff_exists_mem_beq]

lemma occCount_filter_of_keeps (l : List Recipient) (p : Recipient → Bool) (e : String)
    (hp : ∀ r, r.email = e → p r = true) : occCount (l.filter p) e = occCount l e := by
  induction l with
  | nil => rfl
  | cons r rest ih =>
    by_cases hr : r.email = e
    · rw [List.filter_cons, hp r hr]
      simp only [if_true, occCount_cons, ih]
    · have hbe : (r.email == e) = false := by simp [hr]
      rw [List.filter_cons]
      by_cases hpr : p r = true
      · rw [hpr]
        simp only [if_true, occCount_cons, ih, hbe]
      · simp only [Bool.not_eq_true] at hpr
        rw [hpr]
        simp only [Bool.false_eq_true, if_false, ih, occCount_cons, hbe]
        omega

lemma pyFormatAux_cons_none (mapping : List (String × String)) (c : Char) (cs : List Char) :
    pyFormatAux mapping none (c :: cs) =
      if c = lbChar then
        match cs with
        | [] => Except.error singleLbMsg
        | c2 :: cs2 =>
          if c2 = lbChar then (pyFormatAux mapping none cs2).map (fun s => lbChar :: s)
          else pyFormatAux mapping (some []) (c2 :: cs2)
      else if c = rbChar then
        match cs with
        | [] => Except.error singleRbMsg
        | c2 :: cs2 =>
          if c2 = rbChar then (pyFormatAux mapping none cs2).map (fun s => rbChar :: s)
          else Except.error singleRbMsg
      else (pyFormatAux mapping none cs).map (fun s => c :: s) := by
  cases cs <;> simp [pyFormatAux]

lemma pyFormatAux_lit (mapping : List (String × String)) :
    ∀ (s cs : List Char), (∀ c ∈ s, ¬c = lbChar ∧ ¬c = rbChar) →
    pyFormatAux mapping none (s ++ cs) =
      (pyFormatAux mapping none cs).map (fun t => s ++ t) := by
  intro s
  induction s with
  | nil =>
    intro cs _
    rw [List.nil_append]
    cases hx : pyFormatAux mapping none cs <;> simp [hx, Except.map]
  | cons c s ih =>
    intro cs h
    have hc := h c (List.mem_cons_self c s)
    rw [List.cons_append]
    rw [pyFormatAux_cons_none]
    rw [if_neg hc.1, if_neg hc.2]
    rw [ih cs (fun c2 hc2 => h c2 (List.mem_cons_of_mem c hc2))]
    cases hx : pyFormatAux mapping none cs <;> simp [hx, Except.map]

lemma pyFormatAux_field (mapping : List (String × String)) :
    ∀ (k acc cs : List Char), (∀ c ∈ k, ¬c = rbChar) →
    pyFormatAux mapping (some acc) (k ++ rbChar :: cs) =
      (if String.mk (acc.reverse ++ k) = "" then Except.error emptyFieldMsg
       else if (String.mk (acc.reverse ++ k)).data.all Char.isDigit then
         Except.error (pyIndexError (String.mk (acc.reverse ++ k)))
       else
         match mapping.lookup (String.mk (acc.reverse ++ k)) with
         | some v => (pyFormatAux mapping none cs).map (fun s => v.data ++ s)
         | none => Except.error (pyKeyError (String.mk (acc.reverse ++ k)))) := by
  intro k
  induction k with
  | nil =>
    intro acc cs _
    rw [List.nil_append]
    simp only [pyFormatAux]
    simp
  | cons c k ih =>
    intro acc cs h
    have hc : ¬c = rbChar := h c (List.mem_cons_self c k)
    rw [List.cons_append]
    simp only [pyFormatAux]
    rw [if_neg hc]
    rw [ih (c :: acc) cs (fun c2 hc2 => h c2 (List.mem_cons_of_mem c hc2))]
    rw [List.reverse_cons, List.append_assoc, List.singleton_append]

lemma pyFormat_renderParts (mapping : List (String × String)) :
    ∀ (parts : List TemplatePart), wellFormedParts parts = true →
    pyFormatAux mapping none (renderTemplate parts).data =
      (substParts mapping parts).map (fun s => s.data) := by
  intro parts
  induction parts with
  | nil =>
    intro _
    have hd : ("" : String).data = [] := rfl
    simp [renderTemplate, substParts, hd, pyFormatAux, Except.map]
  | cons p ps ih =>
    intro h
    cases p with
    | lit s =>
      simp only [wellFormedParts, Bool.and_eq_true] at h
      have hbf : ∀ c ∈ s.data, ¬c = lbChar ∧ ¬c = rbChar := by
        intro c hc
        have hall := h.1
        rw [braceFree, List.all_eq_true] at hall
        have h2 := hall c hc
        constructor
        · intro hceq; rw [hceq] at h2; simp at h2
        · intro hceq; rw [hceq] at h2; simp at h2
      simp only [renderTemplate, substParts]
      rw [String.data_append, pyFormatAux_lit mapping s.data _ hbf, ih h.2]
      cases hx : substParts mapping ps <;> simp [hx, Except.map, String.data_append]
    | field k =>
      simp only [wellFormedParts, Bool.and_eq_true] at h
      obtain ⟨hpk, hwf⟩ := h
      simp only [plainFieldKey, Bool.and_eq_true] at hpk
      obtain ⟨⟨hkne, hall⟩, hnd⟩ := hpk
      have hkne2 : ¬(k = "") := by
        intro hk
        rw [hk] at hkne
        simp at hkne
      have hkd : k.data ≠ [] := by
        intro hd
        apply hkne2
        cases k with
        | mk d =>
          simp only at hd
          rw [hd]
      have hallk := List.all_eq_true.mp hall
      have hbfrb : ∀ c ∈ k.data, ¬c = rbChar := by
        intro c hc
        have h2 := hallk c hc
        intro hceq
        rw [hceq] at h2
        exact absurd h2 (by decide)
      have hknd : k.data.all Char.isDigit = false := by
        cases hdg : k.data.all Char.isDigit
        · rfl
        · rw [hdg] at hnd
          simp at hnd
      have hdata : (renderTemplate (TemplatePart.field k :: ps)).data =
          lbChar :: (k.data ++ rbChar :: (renderTemplate ps).data) := by
        simp [renderTemplate, String.singleton, String.data_append, List.append_assoc]
      cases hk : k.data with
      | nil => exact absurd hk hkd
      | cons c2 k2 =>
        have hc2 : ¬c2 = lbChar := by
          have h2 := hallk c2 (by rw [hk]; exact List.mem_cons_self _ _)
          intro hceq
          rw [hceq] at h2
          exact absurd h2 (by decide)
        rw [hdata, hk, List.cons_append, pyFormatAux_cons_none, if_pos rfl]
        dsimp only
        rw [if_neg hc2]
        have hback : c2 :: (k2 ++ rbChar :: (renderTemplate ps).data) =
            k.data ++ rbChar :: (renderTemplate ps).data := by
          rw [hk, List.cons_append]
        rw [hback, pyFormatAux_field mapping k.data [] ((renderTemplate ps).data) hbfrb]
        have hkey : String.mk (List.reverse ([] : List Char) ++ k.data) = k := by
          rw [List.reverse_nil, List.nil_append]
        rw [hkey, if_neg hkne2, if_neg (by simp [hknd])]
        simp only [substParts]
        cases hlk : mapping.lookup k with
        | none => simp [hlk, Except.map]
        | some v =>
          rw [ih hwf]
          cases hx : substParts mapping ps <;>
            simp [hx, hlk, Except.map, String.data_append]

/-- C1: for every recipient list and every log state, the eligible set the
orchestrator computes equals the first total_per_day entries of the input list
after removing exactly those emails having a sent or dry-run row stamped on
the current day, and it is a sublist of the input (original relative order,
stable truncation, no reordering). -/
theorem c1_eligible_filter_and_cap (cfg : Config) (transports : Nat → Transport)
    (recipients : List Recipient) (subject body_template : String) (dry_run : Bool)
    (today : Nat) (log : Log) :
    (run_campaign cfg transports recipients subject body_template dry_run today log).eligible =
      spec_eligible recipients log today cfg.total_per_day ∧
    ((run_campaign cfg transports recipients subject body_template dry_run
      today log).eligible).Sublist recipients := by
  have hmain : (run_campaign cfg transports recipients subject body_template dry_run
      today log).eligible = spec_eligible recipients log today cfg.total_per_day := by
    rw [run_campaign_eligible]
    unfold spec_eligible
    congr 1
    apply List.filter_congr
    intro r _
    rw [contains_query_eq]
  refine ⟨hmain, ?_⟩
  rw [run_campaign_eligible]
  exact (List.take_sublist _ _).trans (List.filter_sublist _)

/-- C7: with a positive batch size, the batches are exactly the ceiling-many
consecutive slices of the eligible list in original order (their concatenation
is the eligible list), every batch but possibly the last has exactly
batch_size recipients, and the inter-batch pause happens once per boundary
between consecutive batches, never after the final one. -/
theorem c7_batching (cfg : Config) (transports : Nat → Transport)
    (recipients : List Recipient) (subject body_template : String) (dry_run : Bool)
    (today : Nat) (log : Log) (hB : 0 < cfg.batch_size) :
    (run_campaign cfg transports recipients subject body_template dry_run
        today log).batches.length =
      ((run_campaign cfg transports recipients subject body_template dry_run
        today log).eligible.length + cfg.batch_size - 1) / cfg.batch_size ∧
    (run_campaign cfg transports recipients subject body_template dry_run
        today log).batches.flatten =
      (run_campaign cfg transports recipients subject body_template dry_run
        today log).eligible ∧
    (∀ k, k + 1 < (run_campaign cfg transports recipients subject body_template dry_run
        today log).batches.length →
      ((run_campaign cfg transports recipients subject body_template dry_run
        today log).batches.getD k []).length = cfg.batch_size) ∧
    (run_campaign cfg transports recipients subject body_template dry_run
        today log).interBatchSleeps =
      (run_campaign cfg transports recipients subject body_template dry_run
        today log).batches.length - 1 := by
  have hlen : (run_campaign cfg transports recipients subject body_template dry_run
      today log).batches.length =
      ((run_campaign cfg transports recipients subject body_template dry_run
        today log).eligible.length + cfg.batch_size - 1) / cfg.batch_size := by
    rw [run_campaign_batches_eq]
    simp
  refine ⟨hlen, ?_, ?_, run_campaign_sleeps_eq cfg transports recipients subject body_template
    dry_run today log⟩
  · rw [run_campaign_batches_eq]
    exact join_chunks_zero cfg.batch_size hB _
  · intro k hk
    rw [hlen] at hk
    have hEpos : 0 < (run_campaign cfg transports recipients subject body_template dry_run
        today log).eligible.length := by
      by_contra h0
      have hE0 : (run_campaign cfg transports recipients subject body_template dry_run
          today log).eligible.length = 0 := by omega
      rw [hE0, Nat.zero_add, Nat.div_eq_of_lt (by omega)] at hk
      omega
    have hnum1 : k + 1 ≤ ((run_campaign cfg transports recipients subject body_template dry_run
        today log).eligible.length + cfg.batch_size - 1) / cfg.batch_size - 1 := by omega
    have hkB : (k + 1) * cfg.batch_size ≤ (run_campaign cfg transports recipients subject
        body_template dry_run today log).eligible.length := by
      calc (k + 1) * cfg.batch_size
          ≤ (((run_campaign cfg transports recipients subject body_template dry_run
              today log).eligible.length + cfg.batch_size - 1) / cfg.batch_size - 1) *
              cfg.batch_size := Nat.mul_le_mul_right _ hnum1
        _ ≤ _ := Nat.le_of_lt (ceil_sub_one_mul_lt cfg.batch_size _ hB hEpos)
    rw [run_campaign_batches_eq, getD_map_range _ _ _ k (by omega)]
    exact chunk_length _ _ _ hkB

/-- C7 witness: the statement applied to batch size two over three eligible
recipients, with the all-but-last conjunct instantiated at the first batch. -/
theorem c7_batching_witness :
    (run_campaign cfgBatchTwo (fun _ => transportOk) [recipA, recipB, recipC] "s" "t" true 0
        []).batches.length =
      ((run_campaign cfgBatchTwo (fun _ => transportOk) [recipA, recipB, recipC] "s" "t" true
        0 []).eligible.length + cfgBatchTwo.batch_size - 1) / cfgBatchTwo.batch_size ∧
    (run_campaign cfgBatchTwo (fun _ => transportOk) [recipA, recipB, recipC] "s" "t" true 0
        []).batches.flatten =
      (run_campaign cfgBatchTwo (fun _ => transportOk) [recipA, recipB, recipC] "s" "t" true 0
        []).eligible ∧
    ((run_campaign cfgBatchTwo (fun _ => transportOk) [recipA, recipB, recipC] "s" "t" true 0
        []).batches.getD 0 []).length = cfgBatchTwo.batch_size ∧
    (run_campaign cfgBatchTwo (fun _ => transportOk) [recipA, recipB, recipC] "s" "t" true 0
        []).interBatchSleeps =
      (run_campaign cfgBatchTwo (fun _ => transportOk) [recipA, recipB, recipC] "s" "t" true 0
        []).batches.length - 1 := by
  have h := c7_batching cfgBatchTwo (fun _ => transportOk) [recipA, recipB, recipC] "s" "t"
    true 0 [] (by decide)
  exact ⟨h.1, h.2.1, h.2.2.1 0 (by decide), h.2.2.2⟩

/-- C9 counterexample: with the SMTP password missing, the orchestrator does
not stop before batch processing: with two recipients and batch size one it
still forms and runs two batches, reports the configuration error once per
batch (twice, not once up front), and still performs the inter-batch wait. -/
theorem c9_counterexample :
    (run_campaign cfgNoPassword (fun _ => transportOk) [recipA, recipB] "s" "t" false 0
      []).batches = [[recipA], [recipB]] ∧
    (run_campaign cfgNoPassword (fun _ => transportOk) [recipA, recipB] "s" "t" false 0
      []).configErrorReports = 2 ∧
    (run_campaign cfgNoPassword (fun _ => transportOk) [recipA, recipB] "s" "t" false 0
      []).interBatchSleeps = 1 := by
  refine ⟨?_, ?_, ?_⟩ <;> decide

/-- C9 (amended): with any transport credential missing, the run performs no
sends, writes no log rows and does not crash, and every batch reports the
configuration error; but the error is reported inside each batch during batch
processing, not once before it. -/
theorem c9_missing_credentials (cfg : Config) (transports : Nat → Transport)
    (recipients : List Recipient) (subject body_template : String) (dry_run : Bool)
    (today : Nat) (log : Log) (hcfg : smtpConfigured cfg = false) :
    (run_campaign cfg transports recipients subject body_template dry_run today log).sendCalls
        = 0 ∧
    (run_campaign cfg transports recipients subject body_template dry_run today log).log
        = log ∧
    (run_campaign cfg transports recipients subject body_template dry_run
        today log).configErrorReports =
      (run_campaign cfg transports recipients subject body_template dry_run
        today log).batches.length := by
  simp only [run_campaign]
  split
  case isTrue hemp => exact ⟨rfl, rfl, rfl⟩
  case isFalse hemp =>
    dsimp only
    rcases campaignLoop_configErr cfg transports subject body_template dry_run today _ _
      hcfg _ 0 log with ⟨h1, h2, h3⟩
    refine ⟨h2, h1, ?_⟩
    rw [h3, campaignLoop_batches]
    simp

/-- C9 witness: the amended statement applied to the sample configuration
without a password. -/
theorem c9_missing_credentials_witness :
    (run_campaign cfgNoPassword (fun _ => transportOk) [recipA, recipB] "s" "t" false 0
        []).sendCalls = 0 ∧
    (run_campaign cfgNoPassword (fun _ => transportOk) [recipA, recipB] "s" "t" false 0
        []).log = [] ∧
    (run_campaign cfgNoPassword (fun _ => transportOk) [recipA, recipB] "s" "t" false 0
        []).configErrorReports =
      (run_campaign cfgNoPassword (fun _ => transportOk) [recipA, recipB] "s" "t" false 0
        []).batches.length :=
  c9_missing_credentials cfgNoPassword (fun _ => transportOk) [recipA, recipB] "s" "t" false 0
    [] (by decide)

/-- C3 counterexample: in a dry run with configured credentials the Transport
Session is opened and authenticated (smtplib.SMTP, starttls and login all run
before the per-recipient loop), contradicting that no session is opened; the
recipient still gets its dry-run row and no send call happens. -/
theorem c3_counterexample :
    (send_batch sampleCfg transportOk [recipA] "s" "t" true 0 []).sessionOpened = true ∧
    (send_batch sampleCfg transportOk [recipA] "s" "t" true 0 []).sendCalls = 0 ∧
    (send_batch sampleCfg transportOk [recipA] "s" "t" true 0 []).log = [dryRow 0 recipA] := by
  refine ⟨?_, ?_, ?_⟩ <;> decide

/-- C3 (amended): in a dry run with complete configuration and a successful
connection, no send call is made and every recipient of the batch receives
exactly one dry-run log row, in batch order; the Transport Session, however,
is still opened. -/
theorem c3_dry_run (cfg : Config) (tr : Transport) (recipients : List Recipient)
    (subject body_template : String) (today : Nat) (log : Log)
    (hcfg : smtpConfigured cfg = true) (hconn : tr.connect = ConnectResult.ok) :
    (send_batch cfg tr recipients subject body_template true today log).sendCalls = 0 ∧
    (send_batch cfg tr recipients subject body_template true today log).log =
      log ++ recipients.map (dryRow today) ∧
    (send_batch cfg tr recipients subject body_template true today log).sessionOpened = true := by
  rw [send_batch_dry cfg tr recipients subject body_template today log hcfg hconn]
  exact ⟨rfl, rfl, rfl⟩

/-- C3 witness: the amended statement applied to a two-recipient dry batch. -/
theorem c3_dry_run_witness :
    (send_batch sampleCfg transportOk [recipA, recipB] "s" "t" true 0 []).sendCalls = 0 ∧
    (send_batch sampleCfg transportOk [recipA, recipB] "s" "t" true 0 []).log =
      [] ++ [recipA, recipB].map (dryRow 0) ∧
    (send_batch sampleCfg transportOk [recipA, recipB] "s" "t" true 0 []).sessionOpened = true :=
  c3_dry_run sampleCfg transportOk [recipA, recipB] "s" "t" 0 [] (by decide) (by decide)

/-- C6: if opening or authenticating the session fails (authentication error
or any other connection exception), no send call is attempted, every
recipient of the batch is logged failed with the message identifying that
failure, and no new sent row appears: every sent row of the resulting log was
already in the log before the batch. -/
theorem c6_connect_failure (cfg : Config) (tr : Transport) (recipients : List Recipient)
    (subject body_template : String) (dry_run : Bool) (today : Nat) (log : Log) (msg : String)
    (hcfg : smtpConfigured cfg = true)
    (hmsg : connect_failure_message tr.connect = some msg) :
    (send_batch cfg tr recipients subject body_template dry_run today log).sendCalls = 0 ∧
    (send_batch cfg tr recipients subject body_template dry_run today log).log =
      log ++ recipients.map (failedRow today msg) ∧
    (∀ row ∈ (send_batch cfg tr recipients subject body_template dry_run today log).log,
      row.status = Status.sent → row ∈ log) := by
  rw [send_batch_connect_fail cfg tr recipients subject body_template dry_run today log msg
    hcfg hmsg]
  refine ⟨rfl, rfl, ?_⟩
  intro row hrow hsent
  rcases List.mem_append.mp hrow with h | h
  · exact h
  · rcases List.mem_map.mp h with ⟨r, _, rfl⟩
    simp [failedRow] at hsent

/-- C6 witness: authentication failure on a batch of three recipients gives
three failed rows naming the authentication error and zero sent rows. -/
theorem c6_connect_failure_witness :
    (send_batch sampleCfg transportAuth [recipA, recipB, recipC] "s" "t" false 0
        []).sendCalls = 0 ∧
    (send_batch sampleCfg transportAuth [recipA, recipB, recipC] "s" "t" false 0 []).log =
      [] ++ [recipA, recipB, recipC].map (failedRow 0 "SMTP Authentication Error") ∧
    (∀ row ∈ (send_batch sampleCfg transportAuth [recipA, recipB, recipC] "s" "t" false 0
        []).log, row.status = Status.sent → row ∈ ([] : Log)) :=
  c6_connect_failure sampleCfg transportAuth [recipA, recipB, recipC] "s" "t" false 0 []
    "SMTP Authentication Error" (by decide) (by decide)

lemma sendWithRetries_allOk (cfg : Config) (tr : Transport) (subject body_template : String)
    (today : Nat) (i : Nat) (r : Recipient) (log : Log)
    (hsend : tr.sendResult i 0 = none)
    (hmsg : ∃ m, create_message cfg r.email r.name subject body_template = Except.ok m) :
    sendWithRetries cfg tr subject body_template today i r 0 3 log =
      { log := log_send log today r.email r.name Status.sent none, sendCalls := 1,
        sleeps := [] } := by
  rcases hmsg with ⟨m, hm⟩
  simp [sendWithRetries, hm, hsend]

lemma processRecipients_allSent (cfg : Config) (tr : Transport) (subject body_template : String)
    (today : Nat) (hdelay : 0 ≤ cfg.per_email_delay)
    (hsend : ∀ a b, tr.sendResult a b = none) :
    ∀ (rs : List Recipient) (i : Nat) (log : Log),
      (∀ r ∈ rs, ∃ m, create_message cfg r.email r.name subject body_template = Except.ok m) →
      processRecipients cfg tr subject body_template false today rs i log =
        Except.ok { log := log ++ rs.map (sentRow today), sendCalls := rs.length,
                    sleeps := List.replicate rs.length cfg.per_email_delay } := by
  intro rs
  induction rs with
  | nil => intro i log _; simp [processRecipients]
  | cons r rest ih =>
    intro i log hmsg
    have hr := hmsg r (List.mem_cons_self _ _)
    have hrest : ∀ r2 ∈ rest, ∃ m,
        create_message cfg r2.email r2.name subject body_template = Except.ok m :=
      fun r2 h2 => hmsg r2 (List.mem_cons_of_mem _ h2)
    simp only [processRecipients, Bool.false_eq_true, if_false,
      sendWithRetries_allOk cfg tr subject body_template today i r log (hsend i 0) hr,
      if_neg (not_lt.mpr hdelay), ih (i + 1) _ hrest]
    simp [log_send, sentRow, List.replicate_succ, Nat.add_comm]

lemma campaignLoop_sent_log (cfg : Config) (transports : Nat → Transport)
    (subject body_template : String) (today : Nat) (rts : List Recipient) (num_batches : Nat)
    (hcfg : smtpConfigured cfg = true)
    (hconn : ∀ i, (transports i).connect = ConnectResult.ok)
    (hdelay : 0 ≤ cfg.per_email_delay)
    (hsend : ∀ i a b, (transports i).sendResult a b = none)
    (hmsg : ∀ r ∈ rts, ∃ m,
      create_message cfg r.email r.name subject body_template = Except.ok m) :
    ∀ (remaining i : Nat) (log : Log),
      rts.length ≤ (i + remaining) * cfg.batch_size →
      (campaignLoop cfg transports subject body_template false today rts num_batches
          i remaining log).log =
        log ++ (rts.drop (i * cfg.batch_size)).map (sentRow today) := by
  intro remaining
  induction remaining with
  | zero =>
    intro i log hlen
    simp only [Nat.add_zero] at hlen
    simp [campaignLoop, List.drop_eq_nil_of_le hlen]
  | succ n ih =>
    intro i log hlen
    have hlen2 : rts.length ≤ (i + 1 + n) * cfg.batch_size := by
      have h : i + 1 + n = i + (n + 1) := by omega
      rw [h]; exact hlen
    have hbm : ∀ r ∈ (rts.drop (i * cfg.batch_size)).take cfg.batch_size,
        ∃ m, create_message cfg r.email r.name subject body_template = Except.ok m := by
      intro r hr
      exact hmsg r (((List.take_sublist _ _).trans (List.drop_sublist _ _)).subset hr)
    simp only [campaignLoop, send_batch, hcfg, Bool.not_true, Bool.false_eq_true, if_false,
      hconn i, processRecipients_allSent cfg (transports i) subject body_template today hdelay
        (hsend i) _ 0 log hbm]
    rw [ih (i + 1) _ hlen2]
    rw [List.append_assoc, ← List.map_append]
    congr 2
    have hdd : rts.drop ((i + 1) * cfg.batch_size) =
        (rts.drop (i * cfg.batch_size)).drop cfg.batch_size := by
      rw [List.drop_drop]
      congr 1
      rw [Nat.succ_mul]
    rw [hdd, List.take_append_drop]

lemma run_campaign_sent_log_full (cfg : Config) (transports : Nat → Transport)
    (recipients : List Recipient) (subject body_template : String) (today : Nat) (log : Log)
    (hcfg : smtpConfigured cfg = true)
    (hconn : ∀ i, (transports i).connect = ConnectResult.ok)
    (hB : 0 < cfg.batch_size)
    (hdelay : 0 ≤ cfg.per_email_delay)
    (hsend : ∀ i a b, (transports i).sendResult a b = none)
    (hmsg : ∀ r ∈ recipients, ∃ m,
      create_message cfg r.email r.name subject body_template = Except.ok m) :
    (run_campaign cfg transports recipients subject body_template false today log).log =
      log ++ ((recipients.filter
        (fun r => !((query_sent_today log today).contains r.email))).take
          cfg.total_per_day).map (sentRow today) := by
  have hmsg2 : ∀ r ∈ (recipients.filter
      (fun r => !((query_sent_today log today).contains r.email))).take cfg.total_per_day,
      ∃ m, create_message cfg r.email r.name subject body_template = Except.ok m := by
    intro r hr
    exact hmsg r (((List.take_sublist _ _).trans (List.filter_sublist _)).subset hr)
  simp only [run_campaign]
  split
  case isTrue hemp =>
    have h0 := List.isEmpty_iff.mp hemp
    dsimp only
    rw [h0]
    simp
  case isFalse hemp =>
    dsimp only
    rw [campaignLoop_sent_log cfg transports subject body_template today _ _ hcfg hconn hdelay
      hsend hmsg2 _ 0 log (by rw [Nat.zero_add]; exact le_ceil_mul cfg.batch_size _ hB)]
    simp

/-- C2 counterexample: with a daily cap of one and two fresh recipients, the
first dry run processes only the first recipient and leaves it a dry-run row
(so there is no failed-only history), yet the second run of the same day has
a non-empty eligible set and writes a new log row. -/
theorem c2_counterexample :
    (run_campaign cfgCapOne (fun _ => transportOk) [recipA, recipB] "s" "t" true 0 []).log =
      [dryRow 0 recipA] ∧
    (run_campaign cfgCapOne (fun _ => transportOk) [recipA, recipB] "s" "t" true 0
      (run_campaign cfgCapOne (fun _ => transportOk) [recipA, recipB] "s" "t" true 0
        []).log).eligible = [recipB] ∧
    (run_campaign cfgCapOne (fun _ => transportOk) [recipA, recipB] "s" "t" true 0
      (run_campaign cfgCapOne (fun _ => transportOk) [recipA, recipB] "s" "t" true 0
        []).log).log = [dryRow 0 recipA, dryRow 0 recipB] := by
  refine ⟨?_, ?_, ?_⟩ <;> decide

/-- C2 (amended): if additionally the first run is not truncated by the daily
cap (the count of not-yet-contacted recipients is at most total_per_day), the
pacing delay is non-negative, and the first run leaves every processed
recipient a sent or dry-run row - either because it is a dry run, or because
every message builds and every send of every batch succeeds - then the second
run of the same calendar day has an empty eligible set and writes nothing:
its log equals the first run log, it forms no batches and makes no send
call. -/
theorem c2_idempotent_same_day (cfg : Config) (transports : Nat → Transport)
    (recipients : List Recipient) (subject body_template : String) (dry_run : Bool)
    (today : Nat) (log : Log)
    (hcfg : smtpConfigured cfg = true)
    (hconn : ∀ i, (transports i).connect = ConnectResult.ok)
    (hB : 0 < cfg.batch_size)
    (hdelay : 0 ≤ cfg.per_email_delay)
    (hcap : (recipients.filter
      (fun r => !((query_sent_today log today).contains r.email))).length ≤
        cfg.total_per_day)
    (hok : dry_run = true ∨
      ((∀ i a b, (transports i).sendResult a b = none) ∧
       ∀ r ∈ recipients, ∃ m,
         create_message cfg r.email r.name subject body_template = Except.ok m)) :
    (run_campaign cfg transports recipients subject body_template dry_run today
      (run_campaign cfg transports recipients subject body_template dry_run today
        log).log).eligible = [] ∧
    (run_campaign cfg transports recipients subject body_template dry_run today
      (run_campaign cfg transports recipients subject body_template dry_run today
        log).log).log =
      (run_campaign cfg transports recipients subject body_template dry_run today log).log ∧
    (run_campaign cfg transports recipients subject body_template dry_run today
      (run_campaign cfg transports recipients subject body_template dry_run today
        log).log).batches = [] ∧
    (run_campaign cfg transports recipients subject body_template dry_run today
      (run_campaign cfg transports recipients subject body_template dry_run today
        log).log).sendCalls = 0 := by
  have htake : (recipients.filter
      (fun r => !((query_sent_today log today).contains r.email))).take cfg.total_per_day =
      recipients.filter (fun r => !((query_sent_today log today).contains r.email)) :=
    List.take_of_length_le hcap
  have hall : ∀ r ∈ recipients,
      ((query_sent_today ((run_campaign cfg transports recipients subject body_template dry_run
        today log).log) today).contains r.email) = true := by
    by_cases hd : dry_run = true
    · subst hd
      have hlog1 : (run_campaign cfg transports recipients subject body_template true today
          log).log = log ++ (recipients.filter
            (fun r => !((query_sent_today log today).contains r.email))).map (dryRow today) := by
        rw [run_campaign_dry_log_full cfg transports recipients subject body_template today log
          hcfg hconn hB, htake]
      intro r hr
      rw [hlog1, contains_eq_true_iff, mem_query_sent_today]
      by_cases hq : (query_sent_today log today).contains r.email = true
      · rcases mem_query_sent_today.mp (contains_eq_true_iff _ _ |>.mp hq) with
          ⟨row, hmem, he, hstat, hday⟩
        exact ⟨row, List.mem_append_left _ hmem, he, hstat, hday⟩
      · simp only [Bool.not_eq_true] at hq
        have hrF : r ∈ recipients.filter
            (fun r => !((query_sent_today log today).contains r.email)) := by
          rw [List.mem_filter]
          exact ⟨hr, by rw [hq]; rfl⟩
        exact ⟨dryRow today r, List.mem_append_right _ (List.mem_map_of_mem _ hrF), rfl,
          Or.inr rfl, rfl⟩
    · simp only [Bool.not_eq_true] at hd
      subst hd
      rcases hok with hd2 | ⟨hsend, hmsg⟩
      · exact absurd hd2 (by decide)
      · have hlog1 : (run_campaign cfg transports recipients subject body_template false today
            log).log = log ++ (recipients.filter
              (fun r => !((query_sent_today log today).contains r.email))).map
                (sentRow today) := by
          rw [run_campaign_sent_log_full cfg transports recipients subject body_template today
            log hcfg hconn hB hdelay hsend hmsg, htake]
        intro r hr
        rw [hlog1, contains_eq_true_iff, mem_query_sent_today]
        by_cases hq : (query_sent_today log today).contains r.email = true
        · rcases mem_query_sent_today.mp (contains_eq_true_iff _ _ |>.mp hq) with
            ⟨row, hmem, he, hstat, hday⟩
          exact ⟨row, List.mem_append_left _ hmem, he, hstat, hday⟩
        · simp only [Bool.not_eq_true] at hq
          have hrF : r ∈ recipients.filter
              (fun r => !((query_sent_today log today).contains r.email)) := by
            rw [List.mem_filter]
            exact ⟨hr, by rw [hq]; rfl⟩
          exact ⟨sentRow today r, List.mem_append_right _ (List.mem_map_of_mem _ hrF), rfl,
            Or.inl rfl, rfl⟩
  have htake2 : (recipients.filter (fun r => !((query_sent_today
      ((run_campaign cfg transports recipients subject body_template dry_run today log).log)
        today).contains r.email))).take cfg.total_per_day = [] := by
    have hf2 : recipients.filter (fun r => !((query_sent_today
        ((run_campaign cfg transports recipients subject body_template dry_run today log).log)
          today).contains r.email)) = [] := by
      rw [List.filter_eq_nil_iff]
      intro r hr
      rw [hall r hr]
      simp
    rw [hf2, List.take_nil]
  rw [run_campaign_of_empty cfg transports recipients subject body_template dry_run today _
    htake2]
  exact ⟨rfl, rfl, rfl, rfl⟩

/-- C2 witness: the amended statement applied to a real (non-dry) first run
over two fresh recipients whose messages build and whose sends all succeed,
within the daily cap. -/
theorem c2_idempotent_same_day_witness :
    (run_campaign sampleCfg (fun _ => transportOk) [recipA, recipB] "s" "t" false 0
      (run_campaign sampleCfg (fun _ => transportOk) [recipA, recipB] "s" "t" false 0
        []).log).eligible = [] ∧
    (run_campaign sampleCfg (fun _ => transportOk) [recipA, recipB] "s" "t" false 0
      (run_campaign sampleCfg (fun _ => transportOk) [recipA, recipB] "s" "t" false 0
        []).log).log =
      (run_campaign sampleCfg (fun _ => transportOk) [recipA, recipB] "s" "t" false 0 []).log ∧
    (run_campaign sampleCfg (fun _ => transportOk) [recipA, recipB] "s" "t" false 0
      (run_campaign sampleCfg (fun _ => transportOk) [recipA, recipB] "s" "t" false 0
        []).log).batches = [] ∧
    (run_campaign sampleCfg (fun _ => transportOk) [recipA, recipB] "s" "t" false 0
      (run_campaign sampleCfg (fun _ => transportOk) [recipA, recipB] "s" "t" false 0
        []).log).sendCalls = 0 :=
  c2_idempotent_same_day sampleCfg (fun _ => transportOk) [recipA, recipB] "s" "t" false 0 []
    (by decide) (fun _ => rfl) (by decide) (by decide) (by decide)
    (Or.inr ⟨fun _ _ _ => rfl, fun r _ => ⟨_, rfl⟩⟩)

/-- C4 counterexample: a negative per-email delay makes the pacing sleep of
line 124 raise after the first recipient was already logged sent; the generic
batch handler then logs every recipient of the batch failed, so the first
recipient ends the batch with two rows, a sent one and a failed one. -/
theorem c4_counterexample :
    ((send_batch cfgNegDelay transportOk [recipA, recipB] "s" "t" false 0 []).log.filter
      (fun row => row.email == "a@x.com")).length = 2 ∧
    (send_batch cfgNegDelay transportOk [recipA, recipB] "s" "t" false 0 []).log =
      [{ email := "a@x.com", name := some "Al", status := Status.sent, day := 0,
         error_message := none },
       failedRow 0 "sleep length must be non-negative" recipA,
       failedRow 0 "sleep length must be non-negative" recipB] := by
  refine ⟨?_, ?_⟩ <;> decide

/-- C4 (amended): provided the SMTP configuration is complete and the
per-email pacing delay is non-negative (so no exception escapes the
per-recipient loop), every batch execution gives each recipient entering the
batch exactly one new log row per occurrence, whatever the connection outcome,
the per-message outcomes or the dry-run flag. -/
theorem c4_exactly_one_row (cfg : Config) (tr : Transport) (recipients : List Recipient)
    (subject body_template : String) (dry_run : Bool) (today : Nat) (log : Log) (e : String)
    (hcfg : smtpConfigured cfg = true) (hdelay : 0 ≤ cfg.per_email_delay) :
    rowCountFor (send_batch cfg tr recipients subject body_template dry_run today log).log e =
      rowCountFor log e + occCount recipients e :=
  send_batch_count cfg tr recipients subject body_template dry_run today log e hcfg hdelay

/-- C4 witness: the amended statement applied to a concrete three-recipient
batch whose sends all fail, counting rows of the first email. -/
theorem c4_exactly_one_row_witness :
    rowCountFor (send_batch sampleCfg transportSendFail [recipA, recipB, recipC] "s" "t"
        false 0 []).log "a@x.com" =
      rowCountFor [] "a@x.com" + occCount [recipA, recipB, recipC] "a@x.com" :=
  c4_exactly_one_row sampleCfg transportSendFail [recipA, recipB, recipC] "s" "t" false 0 []
    "a@x.com" (by decide) (by decide)

/-- C10: an email occurring several times in the input and not yet contacted
today survives the eligibility filter with every occurrence (the dedup filter
is computed once, before any sending, and rows written during the run do not
feed back into it), and the run writes exactly one new log row per occurrence,
provided the filtered list fits the daily cap. -/
theorem c10_duplicate_occurrences (cfg : Config) (transports : Nat → Transport)
    (recipients : List Recipient) (subject body_template : String) (dry_run : Bool)
    (today : Nat) (log : Log) (e : String)
    (hcfg : smtpConfigured cfg = true) (hdelay : 0 ≤ cfg.per_email_delay)
    (hB : 0 < cfg.batch_size)
    (hnot : (query_sent_today log today).contains e = false)
    (hcap : (recipients.filter
      (fun r => !((query_sent_today log today).contains r.email))).length ≤
        cfg.total_per_day) :
    occCount (run_campaign cfg transports recipients subject body_template dry_run today
        log).eligible e = occCount recipients e ∧
    rowCountFor (run_campaign cfg transports recipients subject body_template dry_run today
        log).log e = rowCountFor log e + occCount recipients e := by
  have helig : occCount (run_campaign cfg transports recipients subject body_template dry_run
      today log).eligible e = occCount recipients e := by
    rw [run_campaign_eligible, List.take_of_length_le hcap]
    apply occCount_filter_of_keeps
    intro r hr
    rw [hr, hnot]
    rfl
  have hcount := run_campaign_count cfg transports recipients subject body_template dry_run
    today log e hcfg hdelay hB
  rw [helig] at hcount
  exact ⟨helig, hcount⟩

/-- C10 witness: the statement applied to an input containing the same email
twice; both occurrences are eligible and two rows are written for it. -/
theorem c10_duplicate_occurrences_witness :
    occCount (run_campaign sampleCfg (fun _ => transportOk) [recipA, recipA2, recipB] "s" "t"
        true 0 []).eligible "a@x.com" = occCount [recipA, recipA2, recipB] "a@x.com" ∧
    rowCountFor (run_campaign sampleCfg (fun _ => transportOk) [recipA, recipA2, recipB] "s"
        "t" true 0 []).log "a@x.com" =
      rowCountFor [] "a@x.com" + occCount [recipA, recipA2, recipB] "a@x.com" :=
  c10_duplicate_occurrences sampleCfg (fun _ => transportOk) [recipA, recipA2, recipB] "s" "t"
    true 0 [] "a@x.com" (by decide) (by decide) (by decide) (by decide) (by decide)

/-- C5: for a recipient whose message builds and whose three delivery attempts
all fail, the batch sender makes exactly 3 send calls, requests the backoff
waits of 2 to the power attempt seconds (1s then 2s) between consecutive
attempts followed by the pacing delay, and writes exactly one failed row whose
error_message is the text of the last captured error (non-empty when that text
is non-empty). -/
theorem c5_retry_backoff (cfg : Config) (tr : Transport) (subject body_template : String)
    (today : Nat) (r : Recipient) (log : Log) (m : Message) (e0 e1 e2 : String)
    (hcfg : smtpConfigured cfg = true) (hconn : tr.connect = ConnectResult.ok)
    (hdelay : 0 ≤ cfg.per_email_delay)
    (hm : create_message cfg r.email r.name subject body_template = Except.ok m)
    (h0 : tr.sendResult 0 0 = some e0) (h1 : tr.sendResult 0 1 = some e1)
    (h2 : tr.sendResult 0 2 = some e2) (hne : e2 ≠ "") :
    (send_batch cfg tr [r] subject body_template false today log).sendCalls = 3 ∧
    (send_batch cfg tr [r] subject body_template false today log).sleeps =
      [(1 : Rat), 2, cfg.per_email_delay] ∧
    (send_batch cfg tr [r] subject body_template false today log).log =
      log ++ [failedRow today e2 r] ∧
    some e2 ≠ some "" := by
  have hs0 : sendWithRetries cfg tr subject body_template today 0 r 0 3 log =
      { log := log ++ [failedRow today e2 r], sendCalls := 3,
        sleeps := [(1 : Rat), 2] } := by
    simp only [sendWithRetries, hm, h0, h1, h2]
    simp [log_send, failedRow]
  have hproc : processRecipients cfg tr subject body_template false today [r] 0 log =
      Except.ok { log := log ++ [failedRow today e2 r], sendCalls := 3,
                  sleeps := [(1 : Rat), 2, cfg.per_email_delay] } := by
    simp [processRecipients, hs0, if_neg (not_lt.mpr hdelay)]
  have hsb : send_batch cfg tr [r] subject body_template false today log =
      { log := log ++ [failedRow today e2 r], sessionOpened := true, sendCalls := 3,
        sleeps := [(1 : Rat), 2, cfg.per_email_delay], configError := false } := by
    simp [send_batch, hcfg, hconn, hproc]
  rw [hsb]
  exact ⟨rfl, rfl, rfl, by simp [hne]⟩

/-- C5 witness: the statement applied to a recipient whose every send raises
an exception with text boom. -/
theorem c5_retry_backoff_witness :
    (send_batch sampleCfg transportSendFail [recipA] "s" "t" false 0 []).sendCalls = 3 ∧
    (send_batch sampleCfg transportSendFail [recipA] "s" "t" false 0 []).sleeps =
      [(1 : Rat), 2, sampleCfg.per_email_delay] ∧
    (send_batch sampleCfg transportSendFail [recipA] "s" "t" false 0 []).log =
      [] ++ [failedRow 0 "boom" recipA] ∧
    some "boom" ≠ some "" :=
  c5_retry_backoff sampleCfg transportSendFail "s" "t" 0 recipA []
    { msgFrom := "Me <me@x.com>", msgTo := "a@x.com", msgSubject := "s", msgBody := "t" }
    "boom" "boom" "boom" (by decide) (by decide) (by decide) (by rfl) (by rfl)
    (by rfl) (by rfl) (by decide)

/-- C8 counterexample: a template with the unrecognized placeholder foo makes
create_message raise a KeyError (str of the exception is the quoted key): the
placeholder is not left literal and an error does occur, while the same
template with the recognized name placeholder succeeds with it substituted. -/
theorem c8_counterexample :
    create_message sampleCfg "a@x.com" (some "Al") "s" "Hi \x7bfoo\x7d" =
      Except.error "\x27foo\x27" ∧
    create_message sampleCfg "a@x.com" (some "Al") "s" "Hi \x7bname\x7d" =
      Except.ok { msgFrom := "Me <me@x.com>", msgTo := "a@x.com", msgSubject := "s",
                  msgBody := "Hi Al" } := by
  refine ⟨?_, ?_⟩ <;> rfl

/-- C8 (amended): over any template made of brace-free literal text and plain
keyword placeholders (non-empty, identifier characters only, not all digits -
the fragment of str.format without conversions, format specs, attribute or
index access and positional fields), the message builder substitutes exactly
the three recognized keys name, company_name and unsubscribe_link; a
placeholder outside this set is not left literal: building the message fails
with the KeyError naming the first such placeholder. -/
theorem c8_placeholder_semantics (cfg : Config) (recipient_email : String)
    (recipient_name : Option String) (subject : String) (parts : List TemplatePart)
    (h : wellFormedParts parts = true) :
    create_message cfg recipient_email recipient_name subject (renderTemplate parts) =
      match substParts [("name", nameOrThere recipient_name),
                        ("company_name", cfg.company_name),
                        ("unsubscribe_link", cfg.unsubscribe_link)] parts with
      | Except.error err => Except.error err
      | Except.ok body =>
        Except.ok { msgFrom := cfg.from_name ++ " <" ++ cfg.from_email ++ ">",
                    msgTo := recipient_email, msgSubject := subject, msgBody := body } := by
  simp only [create_message, pyFormat, pyFormat_renderParts _ parts h]
  cases hx : substParts [("name", nameOrThere recipient_name),
      ("company_name", cfg.company_name),
      ("unsubscribe_link", cfg.unsubscribe_link)] parts with
  | error err => simp [Except.map]
  | ok body => simp only [Except.map]

/-- C8 witness: the amended statement applied to a template with one literal
piece, one recognized placeholder and one unrecognized placeholder. -/
theorem c8_placeholder_semantics_witness :
    create_message sampleCfg "a@x.com" (some "Al") "s"
      (renderTemplate [TemplatePart.lit "Hi ", TemplatePart.field "name",
        TemplatePart.field "foo"]) =
      match substParts [("name", nameOrThere (some "Al")),
                        ("company_name", sampleCfg.company_name),
                        ("unsubscribe_link", sampleCfg.unsubscribe_link)]
          [TemplatePart.lit "Hi ", TemplatePart.field "name", TemplatePart.field "foo"] with
      | Except.error err => Except.error err
      | Except.ok body =>
        Except.ok { msgFrom := sampleCfg.from_name ++ " <" ++ sampleCfg.from_email ++ ">",
                    msgTo := "a@x.com", msgSubject := "s", msgBody := body } :=
  c8_placeholder_semantics sampleCfg "a@x.com" (some "Al") "s"
    [TemplatePart.lit "Hi ", TemplatePart.field "name", TemplatePart.field "foo"] (by rfl)

end EmailSender
